import Mathlib

/-!
Verification of the collab-todo repository's collaboration core against its
natural-language specification.

The definitions below are shallow embeddings of:
* the three Redis Lua mutation scripts
  (`src/services/collab/core/lua_scripts/update_item.lua`,
  `src/unnamed/part_014` = `delete_item.lua`,
  the `add_item.lua` fragment stored in `src/services/auth/supabase.sql`);
* the client-side filter/sort hook (`useTodoFilters`, `src/unnamed/part_010`);
* the `ToDoModal` status/done change handlers
  (`src/client/src/components/ToDoModal.tsx`);
* the client event-name tables (`src/client/src/constants/events.ts`) and the
  emit call sites in `ListContainer.tsx` and `useTodoSync.ts`.

Machine numbers of the Lua interpreter are idealised as rationals; Redis's
`TIME` is a pair `(seconds, microseconds)` of naturals supplied by the
environment.
-/

namespace CollabTodo

/-- JSON values as decoded by `cjson`.  A decoded JSON `null` is the truthy
`cjson.null` sentinel in Lua, represented here by the `null` constructor. -/
inductive Json where
  | null
  | bool (b : Bool)
  | num (q : ℚ)
  | str (s : String)
  | obj (fields : List (String × Json))
  | arr (elems : List Json)

/-- Lua truthiness of a decoded JSON value: only a decoded JSON `false` is
falsy (a decoded `null` is the truthy `cjson.null` light-userdata). -/
def luaFalsy : Json → Bool
  | .bool false => true
  | _ => false

/-- `t[k]` on a decoded Lua table, represented as an association list. -/
def getKey (l : List (String × Json)) (k : String) : Option Json :=
  (l.find? (fun p => p.1 == k)).map (·.2)

/-- `t[k] = v` on a decoded Lua table: overwrite in place or add the key. -/
def setKey : List (String × Json) → String → Json → List (String × Json)
  | [], k, v => [(k, v)]
  | (k', v') :: rest, k, v =>
      if k' = k then (k, v) :: rest else (k', v') :: setKey rest k v

/-- The Redis hash stored at `todo:state:{list_id}`: fields `items`
(JSON-encoded map, kept decoded here), `rev` and `updated_at`.  A `none`
field is absent from the hash (`HGET` returns nil). -/
structure ListState where
  items : Option (List (String × Json))
  rev : Option ℚ
  updated_at : Option ℕ

/-- A reading of the store clock, `redis.call('TIME')`:
`(seconds, microseconds)`. -/
abbrev Clock := ℕ × ℕ

/-- `new_rev = tonumber(time_parts[1]) + tonumber(time_parts[2]) / 1000000`. -/
def revOfClock (t : Clock) : ℚ := (t.1 : ℚ) + (t.2 : ℚ) / 1000000

/-- Model of Lua `tostring` on the computed revision. -/
def revToString (q : ℚ) : String := toString q

/-- `string.match(list_key, 'todo:state:(.+)')`: the captured list id, or
`nil` when the key does not carry the prefix. -/
def listIdOf (key : String) : Option String :=
  if key.take 11 = "todo:state:" ∧ 11 < key.length then some (key.drop 11)
  else none

/-- The pub/sub message each script builds:
`{type = ..., list_id = ..., <payload>, rev = new_rev}` (a `nil` list_id is
omitted by `cjson.encode`).  Note `rev` is a Lua *number* here. -/
def mkMsg (ty : String) (key : String) (payload : List (String × Json))
    (r : ℚ) : Json :=
  Json.obj ([("type", Json.str ty)] ++
    (match listIdOf key with
      | some i => [("list_id", Json.str i)]
      | none => []) ++
    payload ++ [("rev", Json.num r)])

/-- Outcome of one script run: the reply to the caller, the state of the
list's hash after the run, and the messages published to `todo:updates`. -/
structure ScriptResult where
  result : Except String String
  state : ListState
  published : List Json

/-- `true` when the script committed (returned a value rather than an
error reply). -/
def ScriptResult.committed (r : ScriptResult) : Bool :=
  match r.result with
  | .ok _ => true
  | .error _ => false

/-- `update_item.lua`: fetch the clock, decode `items`, fail when the hash
or item is missing, replace the item, write back `items`/`rev`/`updated_at`,
publish an `item_updated` message, return `tostring(new_rev)`. -/
def update_item (st : ListState) (t : Clock) (list_key item_id : String)
    (item_data : Json) : ScriptResult :=
  let new_rev := revOfClock t
  match st.items with
  | none => ⟨.error "List not found", st, []⟩
  | some items =>
    match getKey items item_id with
    | none => ⟨.error "Item not found", st, []⟩
    | some v =>
      if luaFalsy v then ⟨.error "Item not found", st, []⟩
      else
        ⟨.ok (revToString new_rev),
         { items := some (setKey items item_id item_data),
           rev := some new_rev, updated_at := some t.1 },
         [mkMsg "item_updated" list_key [("item", item_data)] new_rev]⟩

/-- `delete_item.lua` (`src/unnamed/part_014`): same guards as
`update_item.lua`, then `items[item_id] = cjson.null` (a tombstone, not a
removal), write back, publish `item_deleted`, return `tostring(new_rev)`. -/
def delete_item (st : ListState) (t : Clock) (list_key item_id : String) :
    ScriptResult :=
  let new_rev := revOfClock t
  match st.items with
  | none => ⟨.error "List not found", st, []⟩
  | some items =>
    match getKey items item_id with
    | none => ⟨.error "Item not found", st, []⟩
    | some v =>
      if luaFalsy v then ⟨.error "Item not found", st, []⟩
      else
        ⟨.ok (revToString new_rev),
         { items := some (setKey items item_id Json.null),
           rev := some new_rev, updated_at := some t.1 },
         [mkMsg "item_deleted" list_key [("item_id", Json.str item_id)]
            new_rev]⟩

/-- `add_item.lua` (second fragment of `src/services/auth/supabase.sql`):
start from `{}` when the hash has no `items` field, insert the item, write
back, publish `item_added`, return `tostring(new_rev)`.  No error branch. -/
def add_item (st : ListState) (t : Clock) (list_key item_id : String)
    (item_data : Json) : ScriptResult :=
  let new_rev := revOfClock t
  let items := match st.items with
    | some i => i
    | none => []
  ⟨.ok (revToString new_rev),
   { items := some (setKey items item_id item_data),
     rev := some new_rev, updated_at := some t.1 },
   [mkMsg "item_added" list_key [("item", item_data)] new_rev]⟩

/-- Field access on a JSON object (used to inspect published messages). -/
def objField : Json → String → Option Json
  | .obj l, k => getKey l k
  | _, _ => none

/-- Is this JSON value a string? -/
def jsonIsStr : Json → Bool
  | .str _ => true
  | _ => false

/-- Is this JSON value a number? -/
def jsonIsNum : Json → Bool
  | .num _ => true
  | _ => false

/-! ### Revision sequences over traces of script runs (C2) -/

/-- One mutation script invocation. -/
inductive ScriptOp where
  | add (item_id : String) (data : Json)
  | update (item_id : String) (data : Json)
  | del (item_id : String)

/-- Dispatch one script run. -/
def runOp (st : ListState) (t : Clock) (key : String) : ScriptOp →
    ScriptResult
  | .add id data => add_item st t key id data
  | .update id data => update_item st t key id data
  | .del id => delete_item st t key id

/-- Clock readings of the *accepted* writes of a trace, in order; each
rejected script run leaves the state as it was. -/
def acceptedClocks (key : String) :
    ListState → List (Clock × ScriptOp) → List Clock
  | _, [] => []
  | st, (t, op) :: rest =>
    let r := runOp st t key op
    if r.committed then t :: acceptedClocks key r.state rest
    else acceptedClocks key r.state rest

/-- The `rev` values stored and returned by the accepted writes of a trace:
each accepted run's rev is `revOfClock` of its clock reading. -/
def acceptedRevs (key : String) (st : ListState)
    (l : List (Clock × ScriptOp)) : List ℚ :=
  (acceptedClocks key st l).map revOfClock

/-- Strict lexicographic order on store-clock readings. -/
def clockLt (a b : Clock) : Prop :=
  a.1 < b.1 ∨ (a.1 = b.1 ∧ a.2 < b.2)

/-! ### ToDoModal status/done coupling (C5) -/

/-- Item status, `'not_started' | 'in_progress' | 'completed'`
(`src/client/src/types/todo.ts`). -/
inductive Status where
  | not_started
  | in_progress
  | completed
deriving DecidableEq

/-- The `(status, done)` part of the `ToDoModal` form state. -/
structure ModalState where
  status : Status
  done : Bool
deriving DecidableEq

/-- The status `<select>`'s onChange handler in `ToDoModal.tsx`:
`setStatus(newStatus); if (newStatus === 'completed') setDone(true)`. -/
def onStatusChange (newStatus : Status) (s : ModalState) : ModalState :=
  let s' := { s with status := newStatus }
  if newStatus = .completed then { s' with done := true } else s'

/-- The done checkbox's onChange handler in `ToDoModal.tsx`:
`setDone(isDone); if (isDone && status !== 'completed')
setStatus('completed'); else if (!isDone && status === 'completed')
setStatus('in_progress')`. -/
def onDoneChange (isDone : Bool) (s : ModalState) : ModalState :=
  let s' := { s with done := isDone }
  if isDone = true ∧ s.status ≠ .completed then { s' with status := .completed }
  else if isDone = false ∧ s.status = .completed then
    { s' with status := .in_progress }
  else s'

/-- The `done == (status == completed)` coupling invariant. -/
def coupled (s : ModalState) : Prop := s.done = true ↔ s.status = .completed

/-! ### Client event names (C8) -/

/-- `OUTGOING_EVENTS` from `src/client/src/constants/events.ts`: the shared
client-to-server event name space. -/
def OUTGOING_EVENTS : List String :=
  ["join", "join_list", "create_list", "add_item", "update_item",
   "delete_item", "share_list"]

/-- The mutation `socket.emit` call sites of `ListContainer.tsx`
(handler name, event name), read off lines 355-436 of the source. -/
def listContainerMutationEmits : List (String × String) :=
  [("addTodo", "item_add"), ("toggleDone", "item_update"),
   ("handleUpdateTodo", "item_update"), ("handleDeleteTodo", "item_delete"),
   ("handleShare", "list_share"), ("handleCreateList", "list_create")]

/-- The mutation `socket.emit` call sites of `useTodoSync.ts`
(handler name, event name). -/
def useTodoSyncMutationEmits : List (String × String) :=
  [("handleAddTodo", "add_item"), ("handleUpdateTodo", "update_item"),
   ("toggleDone", "update_item"), ("handleDeleteTodo", "delete_item"),
   ("handleShareList", "share_list"), ("handleCreateList", "create_list")]

/-! ### Revision-conflict check of the update_item handler (C6) -/

/-- The server's reply to an `update_item` event: either a `list_snapshot`
of the authoritative state together with an `error` of the given kind, or
the applied mutation's script reply. -/
inductive EventReply where
  | snapshotWithError (snapshot : ListState) (kind : String)
  | applied (res : Except String String)

/-- Modelled from the spec: the collab service's `update_item` event
handler (`services/collab/handlers/item_handler.py`, not present under
`src/`).  Per §4.5 and the repository README's revision-check pseudocode:
a carried `client_rev` below the list's current `rev` rejects the update
and returns the authoritative snapshot plus a `revision_conflict` error,
leaving the state untouched; otherwise (equal, greater, or absent
`client_rev`) the `update_item` script is invoked. -/
def handleUpdateItemEvent (st : ListState) (t : Clock)
    (clientRev : Option ℚ) (key item_id : String) (item_data : Json) :
    ListState × EventReply :=
  let cur := st.rev.getD 0
  match clientRev with
  | some cr =>
    if cr < cur then (st, .snapshotWithError st "revision_conflict")
    else
      let r := update_item st t key item_id item_data
      (r.state, .applied r.result)
  | none =>
    let r := update_item st t key item_id item_data
    (r.state, .applied r.result)

/-! ### Client-side filterAndSort (C10)

Shallow embedding of the `useTodoFilters` hook's `filterAndSort`
(`src/unnamed/part_010`).  The browser's `Date` semantics are abstracted
into a `DateEnv`: `today`/`tomorrow`/`nextWeek` are the hook's memoised
day boundaries, `dateOnly s` models
`new Date(new Date(s).getFullYear(), …Month(), …Date())` as a day index and
`getTime s` models `new Date(s).getTime()`; `localeCompare` is modelled by
the lexicographic order on `String`. -/

/-- A client-side todo item (`src/client/src/types/todo.ts`). -/
structure TodoItemC where
  id : String
  list_id : String
  name : String
  description : Option String
  due_date : Option String
  status : Status
  done : Bool
  media_url : Option String
  is_deleted : Bool
  created_at : String
  updated_at : String
deriving DecidableEq

/-- `filterStatus`: `'all' | 'not_started' | 'in_progress' | 'completed'`. -/
inductive FilterStatus where
  | all
  | not_started
  | in_progress
  | completed
deriving DecidableEq

/-- The status literal a non-`all` filter value denotes. -/
def FilterStatus.target : FilterStatus → Option Status
  | .all => none
  | .not_started => some .not_started
  | .in_progress => some .in_progress
  | .completed => some .completed

/-- `todo.status === filterStatus` (string comparison of the literals;
`'all'` equals no status). -/
def statusEqB (fs : FilterStatus) (s : Status) : Bool :=
  match fs, s with
  | .not_started, .not_started => true
  | .in_progress, .in_progress => true
  | .completed, .completed => true
  | _, _ => false

/-- `filterDueDate` values. -/
inductive FilterDueDate where
  | all
  | overdue
  | today
  | tomorrow
  | this_week
  | no_date
deriving DecidableEq

/-- `sortBy`: `'name' | 'due_date' | 'status'`. -/
inductive SortBy where
  | name
  | due_date
  | status
deriving DecidableEq

/-- `sortOrder`: `'asc' | 'desc'`. -/
inductive SortOrder where
  | asc
  | desc
deriving DecidableEq

/-- The four filter/sort settings of the hook. -/
structure Filters where
  filterStatus : FilterStatus
  filterDueDate : FilterDueDate
  sortBy : SortBy
  sortOrder : SortOrder

/-- The date environment `filterAndSort` closes over. -/
structure DateEnv where
  today : ℤ
  tomorrow : ℤ
  nextWeek : ℤ
  dateOnly : String → ℤ
  getTime : String → ℤ

/-- JS falsiness of `todo.due_date` (`null` or the empty string). -/
def dueFalsy : Option String → Bool
  | none => true
  | some s => s == ""

/-- The underlying string of a non-falsy due date. -/
def dueStrVal : Option String → String
  | some s => s
  | none => ""

/-- The due-date filter predicate (the closure passed to `filter` when
`filterDueDate !== 'all'`). -/
def duePredB (fd : FilterDueDate) (env : DateEnv) (t : TodoItemC) : Bool :=
  if fd = FilterDueDate.no_date then dueFalsy t.due_date
  else if dueFalsy t.due_date then false
  else
    let dOnly := env.dateOnly (dueStrVal t.due_date)
    match fd with
    | .overdue => decide (dOnly < env.today)
    | .today => dOnly == env.today
    | .tomorrow => dOnly == env.tomorrow
    | .this_week => decide (env.today ≤ dOnly) && decide (dOnly ≤ env.nextWeek)
    | _ => true

/-- `statusOrder` of the sort comparator. -/
def statusRank : Status → ℤ
  | .not_started => 0
  | .in_progress => 1
  | .completed => 2

/-- `a.name.localeCompare(b.name)` modelled on the `String` order. -/
def cmpName (a b : TodoItemC) : ℤ :=
  if a.name < b.name then -1 else if b.name < a.name then 1 else 0

/-- The `due_date` comparison with nulls last. -/
def cmpDue (env : DateEnv) (a b : TodoItemC) : ℤ :=
  if dueFalsy a.due_date && dueFalsy b.due_date then 0
  else if dueFalsy a.due_date then 1
  else if dueFalsy b.due_date then -1
  else env.getTime (dueStrVal a.due_date) - env.getTime (dueStrVal b.due_date)

/-- The `status` comparison via `statusOrder`. -/
def cmpStatus (a b : TodoItemC) : ℤ :=
  statusRank a.status - statusRank b.status

/-- The `comparison` value of the sort callback, per `sortBy`. -/
def cmpVal (sb : SortBy) (env : DateEnv) (a b : TodoItemC) : ℤ :=
  match sb with
  | .name => cmpName a b
  | .due_date => cmpDue env a b
  | .status => cmpStatus a b

/-- `sortOrder === 'asc' ? comparison : -comparison`. -/
def effCmp (sb : SortBy) (so : SortOrder) (env : DateEnv)
    (a b : TodoItemC) : ℤ :=
  if so = SortOrder.asc then cmpVal sb env a b else -(cmpVal sb env a b)

/-- The order the sort callback induces: `a` may precede `b` when the
effective comparison is non-positive. -/
def sortRel (sb : SortBy) (so : SortOrder) (env : DateEnv) :
    TodoItemC → TodoItemC → Prop :=
  fun a b => effCmp sb so env a b ≤ 0

instance (sb : SortBy) (so : SortOrder) (env : DateEnv) :
    DecidableRel (sortRel sb so env) :=
  fun a b => inferInstanceAs (Decidable (effCmp sb so env a b ≤ 0))

/-- The combined filter/sort function of the hook: apply the status
filter, then the due-date filter, then sort a copy by the effective
comparator. -/
def filterAndSort (f : Filters) (env : DateEnv) (todos : List TodoItemC) :
    List TodoItemC :=
  let filtered1 :=
    if f.filterStatus = FilterStatus.all then todos
    else todos.filter (fun t => statusEqB f.filterStatus t.status)
  let filtered2 :=
    if f.filterDueDate = FilterDueDate.all then filtered1
    else filtered1.filter (duePredB f.filterDueDate env)
  List.insertionSort (sortRel f.sortBy f.sortOrder env) filtered2

/-- A todo passes both filter steps. -/
def passes (f : Filters) (env : DateEnv) (t : TodoItemC) : Bool :=
  (if f.filterStatus = FilterStatus.all then true
   else statusEqB f.filterStatus t.status) &&
  (if f.filterDueDate = FilterDueDate.all then true
   else duePredB f.filterDueDate env t)

/-- A completed, date-less todo used in witnesses. -/
def todoW1 : TodoItemC :=
  ⟨"t1", "L", "alpha", none, none, .completed, true, none, false, "c", "u"⟩

/-- An in-progress todo with a due date, used in witnesses. -/
def todoW2 : TodoItemC :=
  ⟨"t2", "L", "beta", none, some "2025-01-01", .in_progress, false, none,
   false, "c", "u"⟩

/-- A fixed date environment used in witnesses. -/
def envW : DateEnv := ⟨0, 1, 7, fun _ => 0, fun _ => 0⟩

/-- The sort key of the due-date comparator: missing dates sort last. -/
def dueKey (env : DateEnv) (t : TodoItemC) : WithTop ℤ :=
  if dueFalsy t.due_date then ⊤
  else (env.getTime (dueStrVal t.due_date) : WithTop ℤ)

/-! ### Theorems -/

/-- `getKey` after `setKey` at the same key returns the new value. -/
theorem getKey_setKey (l : List (String × Json)) (k : String) (v : Json) :
    getKey (setKey l k v) k = some v := by
  induction l with
  | nil => simp [setKey, getKey]
  | cons p rest ih =>
    obtain ⟨k', v'⟩ := p
    by_cases h : k' = k
    · simp [setKey, h, getKey]
    · simpa [setKey, h, getKey, List.find?] using ih

/-- `find?` over a payload with no `rev` key reaches the final `rev` pair. -/
theorem find_rev_append (payload : List (String × Json)) (r : ℚ)
    (hp : ∀ p ∈ payload, (p.1 == "rev") = false) :
    (payload ++ [("rev", Json.num r)]).find? (fun p => p.1 == "rev") =
      some ("rev", Json.num r) := by
  induction payload with
  | nil => rfl
  | cons a t ih =>
    rw [List.cons_append, List.find?_cons_of_neg _
      (by simpa using hp a (List.mem_cons_self a t))]
    exact ih (fun p h => hp p (List.mem_cons_of_mem a h))

/-- The `rev` field of a script's published message is the revision as a
JSON number, provided the payload carries no `rev` key of its own. -/
theorem objField_mkMsg_rev (ty key : String) (payload : List (String × Json))
    (r : ℚ) (hp : ∀ p ∈ payload, (p.1 == "rev") = false) :
    objField (mkMsg ty key payload r) "rev" = some (Json.num r) := by
  unfold mkMsg objField getKey
  rcases listIdOf key with _ | i <;>
    simp only [List.nil_append, List.cons_append, List.append_assoc] <;>
    rw [List.find?_cons_of_neg _ (by simp)]
  · rw [find_rev_append payload r hp]
    rfl
  · rw [List.find?_cons_of_neg _ (by simp), find_rev_append payload r hp]
    rfl

/-- C1.  For a successful `update_item` run — the hash has an `items` field
and the target item is present (and truthy) — the script computes
`new_rev = seconds + microseconds / 1e6`, replaces the item with the supplied
JSON, writes back the map with `rev = new_rev` and `updated_at = seconds`,
publishes one `item_updated` message, and returns `new_rev` as a string. -/
theorem update_item_success_shape (st : ListState) (t : Clock)
    (key id : String) (data : Json) (items : List (String × Json)) (v : Json)
    (h1 : st.items = some items) (h2 : getKey items id = some v)
    (h3 : luaFalsy v = false) :
    update_item st t key id data =
      ⟨.ok (revToString (revOfClock t)),
       { items := some (setKey items id data),
         rev := some (revOfClock t), updated_at := some t.1 },
       [mkMsg "item_updated" key [("item", data)] (revOfClock t)]⟩ := by
  simp [update_item, h1, h2, h3]

/-- Witness for `update_item_success_shape` at a concrete store state. -/
theorem update_item_success_shape_witness :
    update_item ⟨some [("i", Json.obj [])], some 100, some 5⟩ (1000, 250000)
        "todo:state:L" "i" (Json.str "new") =
      ⟨.ok (revToString (revOfClock (1000, 250000))),
       { items := some (setKey [("i", Json.obj [])] "i" (Json.str "new")),
         rev := some (revOfClock (1000, 250000)), updated_at := some 1000 },
       [mkMsg "item_updated" "todo:state:L" [("item", Json.str "new")]
          (revOfClock (1000, 250000))]⟩ :=
  update_item_success_shape _ _ _ _ _ [("i", Json.obj [])] (Json.obj [])
    rfl rfl rfl

/-- Case analysis of an `update_item` run: either an error reply with the
hash untouched and nothing published, or the committed shape. -/
theorem update_item_cases (st : ListState) (t : Clock) (key id : String)
    (data : Json) :
    (∃ e, update_item st t key id data = ⟨.error e, st, []⟩) ∨
    update_item st t key id data =
      ⟨.ok (revToString (revOfClock t)),
       (update_item st t key id data).state,
       [mkMsg "item_updated" key [("item", data)] (revOfClock t)]⟩ := by
  rcases h1 : st.items with _ | items
  · exact Or.inl ⟨"List not found", by simp [update_item, h1]⟩
  · rcases h2 : getKey items id with _ | v
    · exact Or.inl ⟨"Item not found", by simp [update_item, h1, h2]⟩
    · rcases h3 : luaFalsy v
      · exact Or.inr (by simp [update_item, h1, h2, h3])
      · exact Or.inl ⟨"Item not found", by simp [update_item, h1, h2, h3]⟩

/-- Case analysis of a `delete_item` run, as for `update_item_cases`. -/
theorem delete_item_cases (st : ListState) (t : Clock) (key id : String) :
    (∃ e, delete_item st t key id = ⟨.error e, st, []⟩) ∨
    delete_item st t key id =
      ⟨.ok (revToString (revOfClock t)),
       (delete_item st t key id).state,
       [mkMsg "item_deleted" key [("item_id", Json.str id)]
         (revOfClock t)]⟩ := by
  rcases h1 : st.items with _ | items
  · exact Or.inl ⟨"List not found", by simp [delete_item, h1]⟩
  · rcases h2 : getKey items id with _ | v
    · exact Or.inl ⟨"Item not found", by simp [delete_item, h1, h2]⟩
    · rcases h3 : luaFalsy v
      · exact Or.inr (by simp [delete_item, h1, h2, h3])
      · exact Or.inl ⟨"Item not found", by simp [delete_item, h1, h2, h3]⟩

/-- C3.  For `update_item` and `delete_item`: a missing `items` field or a
missing item id yields an error reply, an unchanged hash and no publish; a
committed run publishes exactly one message; and a message is published iff
the run committed. -/
theorem mutation_error_and_publish (st : ListState) (t : Clock)
    (key id : String) (data : Json) :
    (st.items = none →
        update_item st t key id data = ⟨.error "List not found", st, []⟩) ∧
    (∀ items, st.items = some items → getKey items id = none →
        update_item st t key id data = ⟨.error "Item not found", st, []⟩) ∧
    ((update_item st t key id data).committed = true →
        (update_item st t key id data).published.length = 1) ∧
    ((update_item st t key id data).published ≠ [] ↔
        (update_item st t key id data).committed = true) ∧
    (st.items = none →
        delete_item st t key id = ⟨.error "List not found", st, []⟩) ∧
    (∀ items, st.items = some items → getKey items id = none →
        delete_item st t key id = ⟨.error "Item not found", st, []⟩) ∧
    ((delete_item st t key id).committed = true →
        (delete_item st t key id).published.length = 1) ∧
    ((delete_item st t key id).published ≠ [] ↔
        (delete_item st t key id).committed = true) := by
  refine ⟨fun h => by simp [update_item, h],
          fun items h1 h2 => by simp [update_item, h1, h2], ?_, ?_,
          fun h => by simp [delete_item, h],
          fun items h1 h2 => by simp [delete_item, h1, h2], ?_, ?_⟩
  · rcases update_item_cases st t key id data with ⟨e, he⟩ | hok
    · rw [he]; simp [ScriptResult.committed]
    · rw [hok]; intro _; rfl
  · rcases update_item_cases st t key id data with ⟨e, he⟩ | hok
    · rw [he]; simp [ScriptResult.committed]
    · rw [hok]; simp [ScriptResult.committed]
  · rcases delete_item_cases st t key id with ⟨e, he⟩ | hok
    · rw [he]; simp [ScriptResult.committed]
    · rw [hok]; intro _; rfl
  · rcases delete_item_cases st t key id with ⟨e, he⟩ | hok
    · rw [he]; simp [ScriptResult.committed]
    · rw [hok]; simp [ScriptResult.committed]

/-- Witness for `mutation_error_and_publish` on a hash with no `items`. -/
theorem mutation_error_and_publish_witness :
    update_item ⟨none, none, none⟩ (7, 0) "todo:state:L" "i" Json.null =
      ⟨.error "List not found", ⟨none, none, none⟩, []⟩ ∧
    delete_item ⟨none, none, none⟩ (7, 0) "todo:state:L" "i" =
      ⟨.error "List not found", ⟨none, none, none⟩, []⟩ :=
  ⟨(mutation_error_and_publish ⟨none, none, none⟩ (7, 0) "todo:state:L" "i"
      Json.null).1 rfl,
   (mutation_error_and_publish ⟨none, none, none⟩ (7, 0) "todo:state:L" "i"
      Json.null).2.2.2.2.1 rfl⟩

/-- C4.  A successful `delete_item` run keeps the key `item_id` in the items
map, bound to a JSON `null` tombstone, rather than removing it; the
tombstone stays in the stored entry (nothing in the script removes it). -/
theorem delete_item_tombstone (st : ListState) (t : Clock) (key id : String)
    (items : List (String × Json)) (v : Json) (h1 : st.items = some items)
    (h2 : getKey items id = some v) (h3 : luaFalsy v = false) :
    (delete_item st t key id).state.items =
        some (setKey items id Json.null) ∧
    getKey (setKey items id Json.null) id = some Json.null := by
  constructor
  · simp [delete_item, h1, h2, h3]
  · exact getKey_setKey items id Json.null

/-- Witness for `delete_item_tombstone` at a concrete store state. -/
theorem delete_item_tombstone_witness :
    (delete_item ⟨some [("i", Json.obj [])], some 100, some 5⟩ (1000, 0)
        "todo:state:L" "i").state.items =
      some (setKey [("i", Json.obj [])] "i" Json.null) ∧
    getKey (setKey [("i", Json.obj [])] "i" Json.null) "i" =
      some Json.null :=
  delete_item_tombstone _ _ _ _ [("i", Json.obj [])] (Json.obj [])
    rfl rfl rfl

/-- C9.  `add_item` never fails: it always returns `new_rev` as a string and
publishes one message, and when the list key is absent it seeds the items
map from empty, creating the cache entry with a fresh `rev`. -/
theorem add_item_never_fails (st : ListState) (t : Clock) (key id : String)
    (data : Json) :
    (add_item st t key id data).result = .ok (revToString (revOfClock t)) ∧
    (add_item st t key id data).published.length = 1 ∧
    (st.items = none →
        (add_item st t key id data).state =
          ⟨some [(id, data)], some (revOfClock t), some t.1⟩) := by
  refine ⟨by simp [add_item], by simp [add_item], fun h => ?_⟩
  simp [add_item, h, setKey]

/-- Witness for `add_item_never_fails` on an absent list key. -/
theorem add_item_never_fails_witness :
    (add_item ⟨none, none, none⟩ (1000, 0) "todo:state:L" "a"
        (Json.obj [])).state =
      ⟨some [("a", Json.obj [])], some (revOfClock (1000, 0)), some 1000⟩ :=
  (add_item_never_fails ⟨none, none, none⟩ (1000, 0) "todo:state:L" "a"
      (Json.obj [])).2.2 rfl

/-- C7, counterexample.  The message `update_item.lua` publishes to the
fan-out channel carries `rev` as a JSON *number*, not a string: on a
concrete run the `rev` field of the single published message is
`Json.num 1000`, so the claim that every server-originated payload
represents `rev` as a decimal string is false. -/
theorem published_rev_not_string :
    (update_item ⟨some [("i", Json.obj [])], some 100, some 5⟩ (1000, 0)
        "todo:state:L" "i" (Json.obj [])).published.map
      (fun m => ((objField m "rev").map jsonIsStr,
                 (objField m "rev").map jsonIsNum)) =
      [(some false, some true)] := by
  decide

/-- C7, amended.  Each script returns `new_rev` to its caller as a string,
but the message it publishes to the fan-out channel carries `rev` as a JSON
number with value `new_rev`. -/
theorem rev_string_return_number_message (st : ListState) (t : Clock)
    (key id : String) (data : Json) :
    (∀ m ∈ (update_item st t key id data).published,
        objField m "rev" = some (Json.num (revOfClock t))) ∧
    ((update_item st t key id data).committed = true →
        (update_item st t key id data).result =
          .ok (revToString (revOfClock t))) ∧
    (∀ m ∈ (delete_item st t key id).published,
        objField m "rev" = some (Json.num (revOfClock t))) ∧
    ((delete_item st t key id).committed = true →
        (delete_item st t key id).result =
          .ok (revToString (revOfClock t))) ∧
    (∀ m ∈ (add_item st t key id data).published,
        objField m "rev" = some (Json.num (revOfClock t))) ∧
    ((add_item st t key id data).committed = true →
        (add_item st t key id data).result =
          .ok (revToString (revOfClock t))) := by
  have hmsg : ∀ ty payload, (∀ p ∈ payload, (p.1 == "rev") = false) →
      objField (mkMsg ty key payload (revOfClock t)) "rev" =
        some (Json.num (revOfClock t)) := fun ty payload hp =>
    objField_mkMsg_rev ty key payload (revOfClock t) hp
  refine ⟨?_, ?_, ?_, ?_, ?_, ?_⟩
  · intro m hm
    rcases update_item_cases st t key id data with ⟨e, he⟩ | hok
    · rw [he] at hm; simp at hm
    · rw [hok] at hm
      simp only [List.mem_singleton] at hm
      subst hm
      exact hmsg "item_updated" [("item", data)] (by simp)
  · intro hc
    rcases update_item_cases st t key id data with ⟨e, he⟩ | hok
    · rw [he] at hc; simp [ScriptResult.committed] at hc
    · rw [hok]
  · intro m hm
    rcases delete_item_cases st t key id with ⟨e, he⟩ | hok
    · rw [he] at hm; simp at hm
    · rw [hok] at hm
      simp only [List.mem_singleton] at hm
      subst hm
      exact hmsg "item_deleted" [("item_id", Json.str id)] (by simp)
  · intro hc
    rcases delete_item_cases st t key id with ⟨e, he⟩ | hok
    · rw [he] at hc; simp [ScriptResult.committed] at hc
    · rw [hok]
  · intro m hm
    simp only [add_item, List.mem_singleton] at hm
    subst hm
    exact hmsg "item_added" [("item", data)] (by simp)
  · intro _
    simp [add_item]

/-- Witness for `rev_string_return_number_message` at a concrete run. -/
theorem rev_string_return_number_message_witness :
    (∀ m ∈ (add_item ⟨none, none, none⟩ (1000, 0) "todo:state:L" "a"
        (Json.obj [])).published,
      objField m "rev" = some (Json.num (revOfClock (1000, 0)))) ∧
    (add_item ⟨none, none, none⟩ (1000, 0) "todo:state:L" "a"
        (Json.obj [])).result =
      .ok (revToString (revOfClock (1000, 0))) :=
  ⟨(rev_string_return_number_message ⟨none, none, none⟩ (1000, 0)
      "todo:state:L" "a" (Json.obj [])).2.2.2.2.1,
   (rev_string_return_number_message ⟨none, none, none⟩ (1000, 0)
      "todo:state:L" "a" (Json.obj [])).2.2.2.2.2 rfl⟩

/-- `revOfClock` is strictly monotone on valid clock readings
(microseconds below 1e6). -/
theorem revOfClock_lt {a b : Clock} (ha : a.2 < 1000000)
    (hab : clockLt a b) : revOfClock a < revOfClock b := by
  rcases hab with h | ⟨h1, h2⟩
  · have hc : (a.2 : ℚ) / 1000000 < 1 := by
      rw [div_lt_one (by norm_num)]
      exact_mod_cast ha
    have hs : (a.1 : ℚ) + 1 ≤ (b.1 : ℚ) := by exact_mod_cast h
    have hb' : (0 : ℚ) ≤ (b.2 : ℚ) / 1000000 := by positivity
    unfold revOfClock
    linarith
  · have hc : (a.2 : ℚ) / 1000000 < (b.2 : ℚ) / 1000000 := by
      have h2' : (a.2 : ℚ) < (b.2 : ℚ) := by exact_mod_cast h2
      gcongr
    unfold revOfClock
    rw [h1]
    linarith

/-- The accepted clocks form a sublist of the trace's clocks. -/
theorem acceptedClocks_sublist (key : String) (st : ListState)
    (l : List (Clock × ScriptOp)) :
    List.Sublist (acceptedClocks key st l) (l.map Prod.fst) := by
  induction l generalizing st with
  | nil => simp [acceptedClocks]
  | cons p rest ih =>
    obtain ⟨t, op⟩ := p
    have he : acceptedClocks key st ((t, op) :: rest) =
        if (runOp st t key op).committed
        then t :: acceptedClocks key (runOp st t key op).state rest
        else acceptedClocks key (runOp st t key op).state rest := rfl
    rw [he, List.map_cons]
    by_cases h : (runOp st t key op).committed
    · rw [if_pos h]
      exact (ih _).cons₂ _
    · rw [if_neg h]
      exact (ih _).cons _

/-- C2, counterexample.  Two `add_item` runs that observe the same store
clock reading `(1000, 0)` are both accepted and both store and return
`rev = 1000`, so the accepted `rev` sequence `[1000, 1000]` is not strictly
increasing and two accepted writes to the same list produce equal revs. -/
theorem equal_revs_same_clock :
    acceptedRevs "todo:state:L" ⟨none, none, none⟩
        [((1000, 0), .add "a" (Json.obj [])),
         ((1000, 0), .add "b" (Json.obj []))] = [1000, 1000] ∧
    ¬ List.Pairwise (· < ·)
        (acceptedRevs "todo:state:L" ⟨none, none, none⟩
          [((1000, 0), .add "a" (Json.obj [])),
           ((1000, 0), .add "b" (Json.obj []))]) := by
  have h1 : acceptedClocks "todo:state:L" ⟨none, none, none⟩
      [((1000, 0), .add "a" (Json.obj [])),
       ((1000, 0), .add "b" (Json.obj []))] = [(1000, 0), (1000, 0)] := rfl
  have h : acceptedRevs "todo:state:L" ⟨none, none, none⟩
      [((1000, 0), .add "a" (Json.obj [])),
       ((1000, 0), .add "b" (Json.obj []))] = [1000, 1000] := by
    rw [acceptedRevs, h1]
    norm_num [revOfClock]
  refine ⟨h, ?_⟩
  rw [h]
  intro hp
  exact lt_irrefl (1000 : ℚ)
    (List.rel_of_pairwise_cons hp (by simp))

/-- C2, amended.  Over any trace of script runs on one list whose store
clock readings are valid (microseconds < 1e6) and strictly increasing, the
`rev` values stored and returned by the accepted writes are strictly
increasing; two accepted writes can produce equal revs only when two script
runs observe the same store-clock microsecond. -/
theorem acceptedRevs_strictMono (key : String) (st : ListState)
    (l : List (Clock × ScriptOp))
    (hval : ∀ t ∈ l.map Prod.fst, t.2 < 1000000)
    (hmono : List.Pairwise clockLt (l.map Prod.fst)) :
    List.Pairwise (· < ·) (acceptedRevs key st l) := by
  have hs := acceptedClocks_sublist key st l
  have hp : List.Pairwise clockLt (acceptedClocks key st l) :=
    hmono.sublist hs
  have hq : List.Pairwise (fun a b => revOfClock a < revOfClock b)
      (acceptedClocks key st l) := by
    refine hp.imp_of_mem ?_
    intro a b ha _ hab
    exact revOfClock_lt (hval a (hs.subset ha)) hab
  exact List.pairwise_map.mpr hq

/-- Witness for `acceptedRevs_strictMono` on a two-write trace. -/
theorem acceptedRevs_strictMono_witness :
    List.Pairwise (· < ·)
      (acceptedRevs "todo:state:L" ⟨none, none, none⟩
        [((1000, 5), .add "a" (Json.obj [])),
         ((1001, 0), .add "b" (Json.obj []))]) :=
  acceptedRevs_strictMono "todo:state:L" ⟨none, none, none⟩ _
    (by decide) (by simp [clockLt])

/-- C5, counterexample.  A patch that moves `status` from `completed` to
`in_progress` while `done` is true leaves `done` true in `ToDoModal`, so the
resulting item violates `done == (status == completed)`: the handlers do
not cover the case the claim includes. -/
theorem status_demotion_breaks_coupling :
    onStatusChange .in_progress ⟨.completed, true⟩ =
      ⟨.in_progress, true⟩ ∧
    ¬ coupled (onStatusChange .in_progress ⟨.completed, true⟩) := by
  refine ⟨rfl, ?_⟩
  intro h
  have := h.mp rfl
  simp [onStatusChange] at this

/-- C5, amended.  The `ToDoModal` handlers force `done = true` when status
is set to `completed`, force `status = completed` when `done` is set true,
and demote `status` to `in_progress` when `done` is cleared while status is
`completed`; every done-checkbox change establishes
`done == (status == completed)`, and a status change preserves it except
when status moves from `completed` to a non-completed value while `done` is
true (there the invariant breaks, as `status_demotion_breaks_coupling`
shows). -/
theorem modal_coupling (s : ModalState) (ns : Status) (d : Bool) :
    (onStatusChange .completed s).done = true ∧
    (onDoneChange true s).status = .completed ∧
    (s.status = .completed → (onDoneChange false s).status = .in_progress) ∧
    coupled (onDoneChange d s) ∧
    ((s.done = false ∨ ns = .completed) → coupled (onStatusChange ns s)) := by
  obtain ⟨st, dn⟩ := s
  cases st <;> cases dn <;> cases ns <;> cases d <;>
    simp [onStatusChange, onDoneChange, coupled]

/-- Witness for `modal_coupling`: clearing `done` on a completed item
demotes the status, and a status change from a clean state keeps the
coupling. -/
theorem modal_coupling_witness :
    (onDoneChange false ⟨.completed, true⟩).status = .in_progress ∧
    coupled (onStatusChange .in_progress ⟨.not_started, false⟩) :=
  ⟨(modal_coupling ⟨.completed, true⟩ .in_progress false).2.2.1 rfl,
   (modal_coupling ⟨.not_started, false⟩ .in_progress false).2.2.2.2
     (Or.inl rfl)⟩

/-- C8, counterexample.  `ListContainer.tsx`'s `addTodo` emits its mutation
under the event name `item_add`, which is not in the shared
`OUTGOING_EVENTS` name space, so not every client mutation emit uses a
shared inbound event name. -/
theorem listContainer_emits_outside_namespace :
    (listContainerMutationEmits.contains ("addTodo", "item_add") &&
     !(OUTGOING_EVENTS.contains "item_add")) = true := by
  decide

/-- C8, amended.  The mutation emits in `useTodoSync.ts` all use names of
the shared `OUTGOING_EVENTS` name space, while every mutation emit in
`ListContainer.tsx` (`item_add`, `item_update`, `item_delete`,
`list_share`, `list_create`) uses a name outside that name space. -/
theorem mutation_emit_names :
    (useTodoSyncMutationEmits.all
      (fun p => OUTGOING_EVENTS.contains p.2) &&
     listContainerMutationEmits.all
      (fun p => !(OUTGOING_EVENTS.contains p.2))) = true := by
  decide

/-- C6.  An `update_item` event with `client_rev` below the list's current
rev is rejected: the state is unchanged and the client gets a
`list_snapshot` of the authoritative state plus a `revision_conflict`
error; with `client_rev` equal to the current rev, or absent, the revision
gate accepts and the update proceeds to the mutation script. -/
theorem revision_conflict_check (st : ListState) (t : Clock) (cur cr : ℚ)
    (key item_id : String) (item_data : Json) (hrev : st.rev = some cur) :
    (cr < cur →
      handleUpdateItemEvent st t (some cr) key item_id item_data =
        (st, .snapshotWithError st "revision_conflict")) ∧
    (handleUpdateItemEvent st t (some cur) key item_id item_data =
      ((update_item st t key item_id item_data).state,
       .applied (update_item st t key item_id item_data).result)) ∧
    (handleUpdateItemEvent st t none key item_id item_data =
      ((update_item st t key item_id item_data).state,
       .applied (update_item st t key item_id item_data).result)) := by
  refine ⟨fun h => ?_, ?_, rfl⟩
  · simp [handleUpdateItemEvent, hrev, h]
  · simp [handleUpdateItemEvent, hrev]

/-- Witness for `revision_conflict_check`: a stale `client_rev = 80`
against `rev = 100` is rejected with a snapshot and a `revision_conflict`
error. -/
theorem revision_conflict_check_witness :
    handleUpdateItemEvent ⟨some [], some 100, some 5⟩ (1000, 0) (some 80)
        "todo:state:L" "i" Json.null =
      (⟨some [], some 100, some 5⟩,
       .snapshotWithError ⟨some [], some 100, some 5⟩
         "revision_conflict") :=
  (revision_conflict_check ⟨some [], some 100, some 5⟩ (1000, 0) 100 80
      "todo:state:L" "i" Json.null rfl).1 (by norm_num)

/-- Swapping the arguments negates the comparison value. -/
theorem cmpVal_antisym (sb : SortBy) (env : DateEnv) (a b : TodoItemC) :
    cmpVal sb env b a = -(cmpVal sb env a b) := by
  cases sb
  · unfold cmpVal cmpName
    rcases lt_trichotomy a.name b.name with h | h | h
    · simp [h, asymm h]
    · simp [h, lt_irrefl]
    · simp [h, asymm h]
  · unfold cmpVal cmpDue
    rcases ha : dueFalsy a.due_date <;> rcases hb : dueFalsy b.due_date <;>
      simp [ha, hb]
  · unfold cmpVal cmpStatus
    ring

/-- The name comparison is non-positive exactly when the names are
ordered. -/
theorem cmpName_nonpos (a b : TodoItemC) :
    cmpName a b ≤ 0 ↔ a.name ≤ b.name := by
  unfold cmpName
  rcases lt_trichotomy a.name b.name with h | h | h
  · rw [if_pos h]
    simp [h.le]
  · rw [if_neg (by simp [h]), if_neg (by simp [h])]
    simp [h.le]
  · rw [if_neg (asymm h), if_pos h]
    simp [not_le.mpr h]

/-- The status comparison is non-positive exactly when the ranks are
ordered. -/
theorem cmpStatus_nonpos (a b : TodoItemC) :
    cmpStatus a b ≤ 0 ↔ statusRank a.status ≤ statusRank b.status := by
  unfold cmpStatus
  omega

/-- The due-date comparison is non-positive exactly when the due keys are
ordered (missing dates last). -/
theorem cmpDue_nonpos (env : DateEnv) (a b : TodoItemC) :
    cmpDue env a b ≤ 0 ↔ dueKey env a ≤ dueKey env b := by
  unfold cmpDue dueKey
  rcases ha : dueFalsy a.due_date <;> rcases hb : dueFalsy b.due_date <;>
    simp [ha, hb]

/-- The comparator order is total. -/
theorem sortRel_total (sb : SortBy) (so : SortOrder) (env : DateEnv)
    (a b : TodoItemC) :
    sortRel sb so env a b ∨ sortRel sb so env b a := by
  have hanti := cmpVal_antisym sb env a b
  cases so
  · show cmpVal sb env a b ≤ 0 ∨ cmpVal sb env b a ≤ 0
    rcases le_total (cmpVal sb env a b) 0 with h | h
    · exact Or.inl h
    · refine Or.inr ?_
      rw [hanti]
      omega
  · show -(cmpVal sb env a b) ≤ 0 ∨ -(cmpVal sb env b a) ≤ 0
    rcases le_total (cmpVal sb env a b) 0 with h | h
    · refine Or.inr ?_
      rw [hanti]
      omega
    · exact Or.inl (by omega)

/-- The comparator order is transitive. -/
theorem sortRel_trans (sb : SortBy) (so : SortOrder) (env : DateEnv)
    (a b c : TodoItemC) :
    sortRel sb so env a b → sortRel sb so env b c →
      sortRel sb so env a c := by
  have hcmp : ∀ x y z : TodoItemC, cmpVal sb env x y ≤ 0 →
      cmpVal sb env y z ≤ 0 → cmpVal sb env x z ≤ 0 := by
    intro x y z
    cases sb
    · simp only [cmpVal]
      rw [cmpName_nonpos, cmpName_nonpos, cmpName_nonpos]
      exact le_trans
    · simp only [cmpVal]
      rw [cmpDue_nonpos, cmpDue_nonpos, cmpDue_nonpos]
      exact le_trans
    · simp only [cmpVal]
      rw [cmpStatus_nonpos, cmpStatus_nonpos, cmpStatus_nonpos]
      exact le_trans
  cases so
  · intro h1 h2
    exact hcmp a b c h1 h2
  · intro h1 h2
    have h1'' : -(cmpVal sb env a b) ≤ 0 := h1
    have h2'' : -(cmpVal sb env b c) ≤ 0 := h2
    have h1' : cmpVal sb env b a ≤ 0 := by
      rw [cmpVal_antisym sb env a b]
      omega
    have h2' : cmpVal sb env c b ≤ 0 := by
      rw [cmpVal_antisym sb env b c]
      omega
    have h3 : cmpVal sb env c a ≤ 0 := hcmp c b a h2' h1'
    show -(cmpVal sb env a c) ≤ 0
    rw [cmpVal_antisym sb env c a]
    omega

/-- The two staged filter steps equal one filter by `passes`. -/
theorem filter_steps (f : Filters) (env : DateEnv) (todos : List TodoItemC) :
    (if f.filterDueDate = FilterDueDate.all then
       (if f.filterStatus = FilterStatus.all then todos
        else todos.filter (fun t => statusEqB f.filterStatus t.status))
     else
       (if f.filterStatus = FilterStatus.all then todos
        else todos.filter
          (fun t => statusEqB f.filterStatus t.status)).filter
         (duePredB f.filterDueDate env)) =
      todos.filter (fun t => passes f env t) := by
  unfold passes
  by_cases h1 : f.filterStatus = FilterStatus.all <;>
    by_cases h2 : f.filterDueDate = FilterDueDate.all <;> simp [h1, h2]
  exact List.filter_congr (fun a _ => Bool.and_comm _ _)

/-- A non-`all` status filter value only lets equal statuses through. -/
theorem statusEqB_target (fs : FilterStatus) (s s' : Status)
    (h1 : fs.target = some s) (h2 : statusEqB fs s' = true) : s' = s := by
  cases fs <;> cases s' <;> simp_all [FilterStatus.target, statusEqB]

/-- C10.  `filterAndSort` returns a permutation of the todos that pass the
status and due-date filters, ordered by the effective comparator (sort key
and direction); when `filterStatus` is not `all` every returned todo's
status equals the filter's status, and when `filterDueDate` is `no_date`
every returned todo has an empty (falsy) due date.  Being a pure function
of its input list, it leaves the input unchanged (the source sorts a copy
`[...filtered]`). -/
theorem filterAndSort_spec (f : Filters) (env : DateEnv)
    (todos : List TodoItemC) :
    List.Perm (filterAndSort f env todos)
      (todos.filter (fun t => passes f env t)) ∧
    List.Pairwise (sortRel f.sortBy f.sortOrder env)
      (filterAndSort f env todos) ∧
    (∀ s : Status, f.filterStatus.target = some s →
      ∀ t ∈ filterAndSort f env todos, t.status = s) ∧
    (f.filterDueDate = FilterDueDate.no_date →
      ∀ t ∈ filterAndSort f env todos, dueFalsy t.due_date = true) := by
  have hfs : filterAndSort f env todos =
      List.insertionSort (sortRel f.sortBy f.sortOrder env)
        (todos.filter (fun t => passes f env t)) := by
    simp only [filterAndSort]
    rw [filter_steps]
  refine ⟨?_, ?_, ?_, ?_⟩
  · rw [hfs]
    exact List.perm_insertionSort _ _
  · rw [hfs]
    haveI : IsTotal TodoItemC (sortRel f.sortBy f.sortOrder env) :=
      ⟨sortRel_total f.sortBy f.sortOrder env⟩
    haveI : IsTrans TodoItemC (sortRel f.sortBy f.sortOrder env) :=
      ⟨sortRel_trans f.sortBy f.sortOrder env⟩
    exact List.sorted_insertionSort _ _
  · intro s hs t ht
    rw [hfs] at ht
    have ht' := (List.perm_insertionSort _ _).subset ht
    rw [List.mem_filter] at ht'
    have hp := ht'.2
    unfold passes at hp
    have hne : ¬ f.filterStatus = FilterStatus.all := by
      intro h
      rw [h] at hs
      simp [FilterStatus.target] at hs
    rw [if_neg hne, Bool.and_eq_true] at hp
    exact statusEqB_target f.filterStatus s t.status hs hp.1
  · intro hfd t ht
    rw [hfs] at ht
    have ht' := (List.perm_insertionSort _ _).subset ht
    rw [List.mem_filter] at ht'
    have hp := ht'.2
    unfold passes at hp
    have hne : ¬ f.filterDueDate = FilterDueDate.all := by
      rw [hfd]
      decide
    rw [if_neg hne, Bool.and_eq_true] at hp
    have hd := hp.2
    rw [hfd] at hd
    unfold duePredB at hd
    rw [if_pos rfl] at hd
    exact hd

/-- Witness for `filterAndSort_spec`: filtering two todos for completed
status and no due date returns only the completed, date-less one. -/
theorem filterAndSort_spec_witness :
    (∀ t ∈ filterAndSort ⟨.completed, .no_date, .name, .asc⟩ envW
        [todoW1, todoW2], t.status = .completed) ∧
    (∀ t ∈ filterAndSort ⟨.completed, .no_date, .name, .asc⟩ envW
        [todoW1, todoW2], dueFalsy t.due_date = true) :=
  ⟨(filterAndSort_spec ⟨.completed, .no_date, .name, .asc⟩ envW
      [todoW1, todoW2]).2.2.1 .completed rfl,
   (filterAndSort_spec ⟨.completed, .no_date, .name, .asc⟩ envW
      [todoW1, todoW2]).2.2.2 rfl⟩

end CollabTodo
